import Mathlib

/-!
# Shallow embedding of the RainbondPackage reconciliation state machine

This file embeds, in Lean 4, the package-installation state machine of
`controllers/rainbondpackage_controller.go` (rainbond-operator): the
condition store (`updateConditionStatus`, `updateConditionResion`,
`updateConditionProgress`, `findCondition`, `setInitStatus`), status
initialization (`initPackageStatus`, `checkStatusCanReturn`), the stage
gatekeeper (`canDownload`, `canUnpack`, `canPushImage`, `canReady`), the
download manager (`donwnloadPackage`), the two image-distribution
strategies (`imagePullAndPush`, `imagesLoadAndPush` with `countImages`,
`validateFile`, `newImageWithNewDomain`, `parseImageName`, `trimLatest`),
and the `handle`/`Reconcile` drivers.

Modelling conventions:
* Wall-clock timestamps (`metav1.Now()`) are threaded as an explicit
  `now : Nat` parameter.
* Kubernetes persistence (`updateCRStatus`) is assumed to succeed; its
  errors are logged and ignored (or retried) by the Go code paths the
  theorems cover.
* Docker-engine interactions (pull/tag/push/load/list) are abstracted by an
  environment ("oracle") recording whether each attempt of a per-image
  operation succeeds; the retry logic, loop structure and condition
  mutations around them are translated statement by statement.
* The background progress-reporter goroutines (download / untar tickers)
  are concurrent and are not part of any claim settled here; they are
  omitted from the sequential model.
-/

namespace Rainbond

/-- `PackageConditionType` of the RainbondPackage API (the five stages). -/
inductive PackageConditionType
  | Init
  | DownloadPackage
  | UnpackPackage
  | PushImage
  | Ready
  deriving DecidableEq, Repr

/-- `PackageConditionStatus` of the RainbondPackage API. -/
inductive PackageConditionStatus
  | Waiting
  | Running
  | Completed
  | Failed
  deriving DecidableEq, Repr

/-- `PackageCondition`: the persisted record of one stage.  Timestamps are
modelled as natural numbers; `progress` is a Go `int`, modelled as `Int`
(it can receive negative inputs through `updateConditionProgress`). -/
structure PackageCondition where
  type               : PackageConditionType
  status             : PackageConditionStatus
  lastHeartbeatTime  : Nat
  lastTransitionTime : Nat
  reason             : String := ""
  message            : String := ""
  progress           : Int := 0
  deriving DecidableEq, Repr

/-- `RainbondPackageImage`: one successfully pushed destination reference. -/
structure RainbondPackageImage where
  name : String
  deriving DecidableEq, Repr

/-- `RainbondPackageStatus`: conditions plus push bookkeeping.
`imagesNumber` is a Go `int32`, modelled as `Int`. -/
structure RainbondPackageStatus where
  conditions   : List PackageCondition
  imagesNumber : Int := 0
  imagesPushed : List RainbondPackageImage := []
  deriving DecidableEq, Repr

/-- `initPackageStatus(status)`: the five stage conditions in source order,
all with the given status, timestamps `metav1.Now()`. -/
def initPackageStatus (status : PackageConditionStatus) (now : Nat) :
    RainbondPackageStatus :=
  { conditions :=
      [ { type := .Init, status := status, lastHeartbeatTime := now,
          lastTransitionTime := now }
      , { type := .DownloadPackage, status := status, lastHeartbeatTime := now,
          lastTransitionTime := now }
      , { type := .UnpackPackage, status := status, lastHeartbeatTime := now,
          lastTransitionTime := now }
      , { type := .PushImage, status := status, lastHeartbeatTime := now,
          lastTransitionTime := now }
      , { type := .Ready, status := status, lastHeartbeatTime := now,
          lastTransitionTime := now } ]
    imagesPushed := [] }

/-- The `for` loop body of `checkStatusCanReturn`: returns `.inl` for the
early `return` statements inside the loop (`Running → (false, &Result{})`,
`Failed → (false, nil)`), or `.inr completedCount` when the loop ends. -/
def checkConditionsLoop : List PackageCondition → Nat → (Bool × Option Unit) ⊕ Nat
  | [], k => .inr k
  | c :: rest, k =>
    if c.status = .Running then .inl (false, some ())
    else if c.status = .Failed then .inl (false, none)
    else checkConditionsLoop rest (if c.status = .Completed then k + 1 else k)

/-- `checkStatusCanReturn(pkg)`: returns the (possibly initialized) status
together with `(updateStatus, re)`.  `re : Option Unit` models the
`*reconcile.Result` pointer (`some ()` = `&reconcile.Result{}`, `none` =
`nil`). -/
def checkStatusCanReturn (st : RainbondPackageStatus) (now : Nat) :
    RainbondPackageStatus × Bool × Option Unit :=
  if st.conditions = [] then
    (initPackageStatus .Waiting now, true, some ())
  else
    match checkConditionsLoop st.conditions 0 with
    | .inl r => (st, r)
    | .inr completedCount =>
      if completedCount = st.conditions.length then (st, false, some ())
      else (st, false, none)

/-- What the `Reconcile` pass does after `checkStatusCanReturn`:
`returnNoError` models the `return reconcile.Result{...}, nil` paths taken
when `updateStatus` is true or `re != nil`; `proceedToHandle` models
falling through to `newpkg` and `p.handle()`. -/
inductive PassAction
  | returnNoError
  | proceedToHandle
  deriving DecidableEq, Repr

/-- The dispatch portion of `Reconcile` (after the cluster-config fetch and
full-online shortcut, with persistence succeeding): run
`checkStatusCanReturn`; if `updateStatus`, persist and return; if
`re != nil`, return; otherwise proceed to `handle`. -/
def reconcileDispatch (st : RainbondPackageStatus) (now : Nat) :
    RainbondPackageStatus × PassAction :=
  let r := checkStatusCanReturn st now
  if r.2.1 then (r.1, .returnNoError)
  else if r.2.2.isSome then (r.1, .returnNoError)
  else (r.1, .proceedToHandle)

/-- `findCondition(typ3)`: first condition with the given type. -/
def findCondition (conds : List PackageCondition) (typ3 : PackageConditionType) :
    Option PackageCondition :=
  conds.find? (fun c => c.type = typ3)

/-- `updateConditionStatus(typ3, status)`: on the first condition of the
given type — bump `LastTransitionTime` only if the status changes, always
bump `LastHeartbeatTime`, store the status, and on `Completed` force
`progress := 100` and clear reason/message; then `break`. -/
def updateConditionStatus (conds : List PackageCondition)
    (typ3 : PackageConditionType) (status : PackageConditionStatus)
    (now : Nat) : List PackageCondition :=
  match conds with
  | [] => []
  | c :: rest =>
    if c.type = typ3 then
      let c := { c with
        lastTransitionTime := if c.status ≠ status then now else c.lastTransitionTime,
        lastHeartbeatTime := now,
        status := status }
      let c := if status = .Completed then
          { c with progress := 100, reason := "", message := "" }
        else c
      c :: rest
    else
      c :: updateConditionStatus rest typ3 status now

/-- `updateConditionResion(typ3, resion, message)`: on the first condition
of the given type — bump heartbeat, store reason and message; `break`. -/
def updateConditionResion (conds : List PackageCondition)
    (typ3 : PackageConditionType) (resion message : String)
    (now : Nat) : List PackageCondition :=
  match conds with
  | [] => []
  | c :: rest =>
    if c.type = typ3 then
      { c with lastHeartbeatTime := now, reason := resion, message := message } :: rest
    else
      c :: updateConditionResion rest typ3 resion message now

/-- `updateConditionProgress(typ3, progress)`: clamp inputs above 100 down
to 100 (no lower clamp in the source); on a condition of the given type —
bump heartbeat, and if the stored progress differs, store it and `return
true` (the loop has no `break` on the equal case, so it continues). -/
def updateConditionProgress (conds : List PackageCondition)
    (typ3 : PackageConditionType) (progress : Int) (now : Nat) :
    List PackageCondition × Bool :=
  let progress := if progress > 100 then 100 else progress
  go conds progress
where
  go : List PackageCondition → Int → List PackageCondition × Bool
  | [], _ => ([], false)
  | c :: rest, prog =>
    if c.type = typ3 then
      let c := { c with lastHeartbeatTime := now }
      if c.progress ≠ prog then
        ({ c with progress := prog } :: rest, true)
      else
        let r := go rest prog
        (c :: r.1, r.2)
    else
      let r := go rest prog
      (c :: r.1, r.2)

/-- `setInitStatus()`: `findCondition(Init)` returns a pointer; if its
status is not `Completed` the source assigns `con.Status = Completed`
directly on the pointed-to struct — no heartbeat, transition time,
progress, reason or message update — and persists. -/
def setInitStatus (conds : List PackageCondition) : List PackageCondition :=
  match conds with
  | [] => []
  | c :: rest =>
    if c.type = .Init then
      (if c.status ≠ .Completed then { c with status := .Completed } else c) :: rest
    else
      c :: setInitStatus rest

/-! ## Path helpers (Go `path` package, restricted to the program's inputs) -/

/-- Go `path.Base`: drop trailing slashes, then keep everything after the
last `/`; `""` gives `"."`, an all-slash path gives `"/"`. -/
def pathBase (s : String) : String :=
  if s = "" then "."
  else
    let rev := s.toList.reverse.dropWhile (fun c => c = '/')
    match rev with
    | [] => "/"
    | _ => String.mk ((rev.takeWhile (fun c => c ≠ '/')).reverse)

/-- Go `path.Ext`: the suffix starting at the last `.` of the final
slash-separated element; `""` when there is none. -/
def pathExt (s : String) : String :=
  go s.toList.reverse []
where
  go : List Char → List Char → String
  | [], _ => ""
  | c :: rest, acc =>
    if c = '/' then ""
    else if c = '.' then String.mk ('.' :: acc)
    else go rest (c :: acc)

/-- Collapse each run of repeated `/` characters into one. -/
def cleanSlashes : List Char → List Char
  | [] => []
  | [c] => [c]
  | c :: d :: rest =>
    if c = '/' ∧ d = '/' then cleanSlashes (d :: rest)
    else c :: cleanSlashes (d :: rest)

/-- Go `path.Join` on two elements.  The joined image references in this
program contain no `.` or `..` segments, so `path.Clean` reduces to
collapsing duplicate slashes and dropping a trailing slash. -/
def pathJoin (a b : String) : String :=
  let joined := if a = "" then b else if b = "" then a else a ++ "/" ++ b
  let cs := cleanSlashes joined.toList
  let cs := if cs ≠ ['/'] ∧ cs.getLast? = some '/' then cs.dropLast else cs
  String.mk cs

/-! ## Bundle-file validation (`validateFile`, `countImages`) -/

/-- A node seen by `filepath.Walk` under the unpack directory:
its path and whether `commonutil.IsFile` holds for it. -/
structure FileEntry where
  path   : String
  isFile : Bool
  deriving DecidableEq, Repr

/-- `validateFile(file)`: the base name must have extension `.tgz` and must
not carry the macOS `._` hidden-file naming convention. -/
def validateFile (file : String) : Bool :=
  let base := pathBase file
  if (pathExt base != ".tgz") || List.isPrefixOf "._".toList base.toList then false else true

/-- `countImages(dir)`: `filepath.Walk` over the directory counting the
entries that are files and pass `validateFile` (walk errors skip the
entry). -/
def countImages (fs : List FileEntry) : Int :=
  (fs.countP (fun e => e.isFile && validateFile e.path) : Int)

/-! ## Docker reference parsing (`github.com/docker/distribution/reference`)

`newImageWithNewDomain` and `checkIfImageExists` call `reference.Parse`,
whose grammar (reference/regexp.go) is, restricted to the tagged/untagged
names this program feeds it (no digests):

    reference        := name [":" tag]
    name             := [domain "/"] path-component ("/" path-component)*
    domain           := domain-component ("." domain-component)* [":" port]
    domain-component := [a-zA-Z0-9] | [a-zA-Z0-9][a-zA-Z0-9-]*[a-zA-Z0-9]
    path-component   := [a-z0-9]+ (separator [a-z0-9]+)*
    separator        := [._] | "__" | "-"+
    tag              := [\w][\w.-]{0,127}

The optional `domain "/"` prefix is matched greedily with backtracking: the
segment before the first `/` becomes the domain whenever it matches the
domain grammar and the remainder is a valid path; `reference.Path` then
returns only the path part, without the domain. -/

/-- A parsed docker reference: domain (possibly empty), path, optional tag. -/
structure ParsedReference where
  domain : String
  path   : String
  tag    : Option String
  deriving DecidableEq, Repr

/-- Split a character list on a separator character (the semantics of
`strings.Split` for a one-character separator). -/
def splitOnChar (sep : Char) : List Char → List (List Char)
  | [] => [[]]
  | c :: rest =>
    let r := splitOnChar sep rest
    if c = sep then [] :: r
    else
      match r with
      | [] => [[c]]
      | h :: t => (c :: h) :: t

/-- `domain-component`: alphanumeric with inner hyphens. -/
def domainComponentOK (cs : List Char) : Bool :=
  match cs with
  | [] => false
  | _ =>
    (cs.head?.elim false Char.isAlphanum) &&
    (cs.getLast?.elim false Char.isAlphanum) &&
    cs.all (fun c => c.isAlphanum || c = '-')

/-- `domain`: dot-separated domain components with an optional numeric port. -/
def domainOK (s : String) : Bool :=
  match splitOnChar ':' s.toList with
  | [h] => (splitOnChar '.' h).all domainComponentOK
  | [h, p] => (!p.isEmpty) && p.all Char.isDigit
      && (splitOnChar '.' h).all domainComponentOK
  | _ => false

/-- Lowercase letter or digit (the alphabet of path components). -/
def isLowerAlnum (c : Char) : Bool := c.isLower || c.isDigit

/-- A maximal non-alphanumeric run inside a path component must be one of
the separators `.`, `_`, `__`, or a run of hyphens. -/
def sepOK (sep : List Char) : Bool :=
  sep = ['.'] || sep = ['_'] || sep = ['_', '_'] || (!sep.isEmpty && sep.all (fun c => c = '-'))

/-- Group a character list into maximal runs tagged by a predicate. -/
def chunkBy (p : Char → Bool) : List Char → List (Bool × List Char)
  | [] => []
  | c :: rest =>
    match chunkBy p rest with
    | [] => [(p c, [c])]
    | (b, run) :: more =>
      if p c = b then (b, c :: run) :: more else (p c, [c]) :: (b, run) :: more

/-- `path-component`: lowercase alphanumeric runs joined by valid separators. -/
def pathComponentOK (cs : List Char) : Bool :=
  let chunks := chunkBy isLowerAlnum cs
  (!chunks.isEmpty) &&
  (chunks.head?.elim false (fun ch => ch.1)) &&
  (chunks.getLast?.elim false (fun ch => ch.1)) &&
  chunks.all (fun ch => ch.1 || sepOK ch.2)

/-- A remote name: slash-separated path components. -/
def pathOK (s : String) : Bool :=
  (splitOnChar '/' s.toList).all pathComponentOK

/-- `tag`: a word character followed by up to 127 word/`.`/`-` characters. -/
def tagOK (s : String) : Bool :=
  match s.toList with
  | [] => false
  | c :: rest =>
    (c.isAlphanum || c = '_') && rest.length ≤ 127 &&
    rest.all (fun d => d.isAlphanum || d = '_' || d = '.' || d = '-')

/-- Split off the tag: the text after the last `:` is a tag candidate
unless that `:` lies before a later `/` (then it is a domain port). -/
def splitTag (s : String) : String × Option String :=
  let rev := s.toList.reverse
  let afterColon := rev.takeWhile (fun c => c ≠ ':')
  if afterColon.length = rev.length || afterColon.contains '/' then (s, none)
  else (String.mk ((rev.drop (afterColon.length + 1)).reverse),
        some (String.mk afterColon.reverse))

/-- Split an (untagged) name into domain and path, with the grammar's
greedy-domain-then-backtrack behaviour. -/
def splitDomain (name : String) : Option (String × String) :=
  let cs := name.toList
  let first := cs.takeWhile (fun c => c ≠ '/')
  if first.length = cs.length then
    if pathOK name then some ("", name) else none
  else
    let d := String.mk first
    let rest := String.mk (cs.drop (first.length + 1))
    if domainOK d && pathOK rest then some (d, rest)
    else if pathOK name then some ("", name) else none

/-- `reference.Parse`, restricted to digest-free references. -/
def referenceParse (s : String) : Option ParsedReference :=
  let (name, tag) := splitTag s
  match tag with
  | some t =>
    if tagOK t then (splitDomain name).map (fun dp => ⟨dp.1, dp.2, some t⟩)
    else none
  | none => (splitDomain name).map (fun dp => ⟨dp.1, dp.2, none⟩)

/-- `newImageWithNewDomain(image, newDomain)`: parse the loaded image name,
take `reference.Path` (the repository path without its original domain) and
the tag (default `latest`), and join under the new domain.  Parse failure
yields `""`. -/
def newImageWithNewDomain (image newDomain : String) : String :=
  match referenceParse image with
  | none => ""
  | some r =>
    let remoteName := r.path
    let tag := r.tag.getD "latest"
    pathJoin newDomain (remoteName ++ ":" ++ tag)

/-- `strings.Contains` on character lists. -/
def containsSub (pat : List Char) : List Char → Bool
  | [] => pat.isEmpty
  | c :: rest => List.isPrefixOf pat (c :: rest) || containsSub pat rest

/-- `strings.Replace(s, pat, rep, -1)` on character lists: replace every
non-overlapping occurrence, scanning left to right. -/
def replaceSub (pat rep : List Char) : List Char → List Char
  | [] => []
  | c :: rest =>
    if List.isPrefixOf pat (c :: rest) ∧ pat ≠ [] then
      rep ++ replaceSub pat rep (rest.drop (pat.length - 1))
    else
      c :: replaceSub pat rep rest
termination_by cs => cs.length
decreasing_by
  · simp only [List.length_drop, List.length_cons]; omega
  · simp only [List.length_cons]; omega

/-- `trimLatest(str)`: strip a trailing `:latest`. -/
def trimLatest (str : String) : String :=
  if !(List.isSuffixOf ":latest".toList str.toList) then str
  else String.mk (str.toList.take (str.toList.length - 7))

/-- `parseImageName(str)`: extract the image name from a
`Loaded image: ...` stream line; `""` when the marker is absent. -/
def parseImageName (str : String) : String :=
  if !containsSub "Loaded image: ".toList str.toList then ""
  else trimLatest (String.mk
    (replaceSub "\n".toList [] (replaceSub "Loaded image: ".toList [] str.toList)))

/-! ## The per-pass `pkg` value, gatekeeper, and stage bodies -/

/-- The fields of the `pkg` struct that the state machine reads or writes.
`images` is the source→destination mapping (Go iterates the map in some
order; the list fixes one such order).  `downloadPackage` selects the
"ship a tarball" install mode; `newpkg` leaves it `false`. -/
structure PkgState where
  status              : RainbondPackageStatus
  downloadPackage     : Bool
  downloadImageDomain : String := ""
  pushImageDomain     : String := ""
  images              : List (String × String) := []
  deriving DecidableEq, Repr

/-- `completeCondition(con)`: set the condition's stage to `Completed` and
persist (persistence modelled as succeeding). -/
def completeCondition (st : RainbondPackageStatus)
    (typ3 : PackageConditionType) (now : Nat) : RainbondPackageStatus :=
  { st with conditions := updateConditionStatus st.conditions typ3 .Completed now }

/-- `runningCondition(con)`: set the condition's stage to `Running` and
persist. -/
def runningCondition (st : RainbondPackageStatus)
    (typ3 : PackageConditionType) (now : Nat) : RainbondPackageStatus :=
  { st with conditions := updateConditionStatus st.conditions typ3 .Running now }

/-- `canDownload()`: if DownloadPackage is not `Completed`, either complete
it immediately (no download needed) and answer `false`, or claim it as
`Running` and answer `true`. -/
def canDownload (s : PkgState) (now : Nat) : Bool × RainbondPackageStatus :=
  match findCondition s.status.conditions .DownloadPackage with
  | some con =>
    if con.status ≠ .Completed then
      if !s.downloadPackage then
        (false, completeCondition s.status .DownloadPackage now)
      else
        (true, runningCondition s.status .DownloadPackage now)
    else (false, s.status)
  | none => (false, s.status)

/-- `canUnpack()`: requires DownloadPackage `Completed`; if UnpackPackage
is not `Completed`, either complete it immediately (no bundle) and answer
`false`, or claim it as `Running` and answer `true`. -/
def canUnpack (s : PkgState) (now : Nat) : Bool × RainbondPackageStatus :=
  match findCondition s.status.conditions .DownloadPackage with
  | some con =>
    if con.status ≠ .Completed then (false, s.status)
    else
      match findCondition s.status.conditions .UnpackPackage with
      | some uncon =>
        if uncon.status ≠ .Completed then
          if !s.downloadPackage then
            (false, completeCondition s.status .UnpackPackage now)
          else
            (true, runningCondition s.status .UnpackPackage now)
        else (false, s.status)
      | none => (false, s.status)
  | none => (false, s.status)

/-- `canPushImage()`: UnpackPackage `Completed` and PushImage not
`Completed`.  Unlike `canDownload`/`canUnpack` it performs no state
mutation: the selected stage is not flipped to `Running`. -/
def canPushImage (s : PkgState) : Bool :=
  match findCondition s.status.conditions .UnpackPackage with
  | some uncon =>
    if uncon.status ≠ .Completed then false
    else
      match findCondition s.status.conditions .PushImage with
      | some pcon => pcon.status ≠ .Completed
      | none => false
  | none => false

/-- `canReady()`: PushImage `Completed`. -/
def canReady (s : PkgState) : Bool :=
  match findCondition s.status.conditions .PushImage with
  | some pcon => pcon.status = .Completed
  | none => false

/-! ## Download Manager (`donwnloadPackage`) -/

/-- The externally observable behaviour of one pass of the download
manager: whether a file already sits at the destination with the wanted
MD5, and the outcome of the first and second `Download()` call (`none` =
success, `some e` = transfer error `e`). -/
structure DownloadOracle where
  existingFileMD5OK : Bool
  firstErr          : Option String
  secondErr         : Option String
  deriving DecidableEq, Repr

/-- `donwnloadPackage()`: succeed at once when an existing file passes the
MD5 check; otherwise call `Download()`, and on failure record the error on
the Init condition's reason, persist, and call `Download()` exactly once
more, surfacing the second error if any.  Returns the updated status, the
returned error, and the number of `Download()` calls made (the concurrent
progress ticker is omitted). -/
def donwnloadPackage (st : RainbondPackageStatus) (o : DownloadOracle)
    (now : Nat) : RainbondPackageStatus × Option String × Nat :=
  if o.existingFileMD5OK then (st, none, 0)
  else
    match o.firstErr with
    | none => (st, none, 1)
    | some e1 =>
      let conds := updateConditionResion st.conditions .Init e1
        "download rainbond package error, will retry" now
      let st := { st with conditions := conds }
      match o.secondErr with
      | none => (st, none, 2)
      | some e2 => (st, some e2, 2)

/-! ## Image Distributor -/

/-- Modelled from the spec: `util/retryutil.Retry(interval, maxCount, fn)`
is not under `src/`.  Per §4.5 each per-image sequence is wrapped in a
bounded retry, "up to 3 attempts with a ... delay between attempts; on
exhaustion the whole stage fails": invoke `fn` up to `maxCount` times,
stop at the first success, and surface the final attempt's error on
exhaustion.  `fn i` is the outcome of attempt `i` (`none` = success). -/
def retryutilRetry (maxCount : Nat) (fn : Nat → Option String) : Option String :=
  go 0 maxCount
where
  go : Nat → Nat → Option String
  | _, 0 => some "retry count exhausted"
  | i, fuel + 1 =>
    match fn i with
    | none => none
    | some e => if fuel = 0 then some e else go (i + 1) fuel

/-- `imagePullAndPush()`: set `ImagesNumber` to the mapping size, reset
`ImagesPushed` to nil, then for each mapping entry run the
check-exists/pull/tag/push sequence under a 3-attempt retry; stop at the
first exhausted entry.  After each success: `count++`, append the
destination reference, `progress := count*100/ImagesNumber`, persist on
change.  `env i a` is the outcome of attempt `a` of the per-image docker
sequence for entry `i` (all operands of the progress division are
nonnegative, so Go's truncated division agrees with Lean's). -/
def imagePullAndPush (s : PkgState) (env : Nat → Nat → Option String)
    (now : Nat) : RainbondPackageStatus × Option String :=
  let st := { s.status with
    imagesNumber := (s.images.length : Int), imagesPushed := [] }
  go st s.images 0 0
where
  go (st : RainbondPackageStatus) :
      List (String × String) → Nat → Int → RainbondPackageStatus × Option String
  | [], _, _ => (st, none)
  | (old, new) :: rest, i, count =>
    let _remoteImage := pathJoin s.downloadImageDomain old
    let localImage := pathJoin s.pushImageDomain new
    match retryutilRetry 3 (env i) with
    | some e => (st, some e)
    | none =>
      let count := count + 1
      let st := { st with imagesPushed := st.imagesPushed ++ [RainbondPackageImage.mk localImage] }
      let progress := count * 100 / st.imagesNumber
      let conds := (updateConditionProgress st.conditions .PushImage progress now).1
      go { st with conditions := conds } rest (i + 1) count

/-- One attempt of the per-file body `f` inside `imagesLoadAndPush`: how
far the docker interactions got.  The loaded image's stream-parsed name is
carried so that `newImageWithNewDomain` runs on it in the model exactly
where the source runs it. -/
inductive LoadAttempt
  | loadErr (e : String)
  | tagErr (image : String) (e : String)
  | pushErr (image : String) (e : String)
  | ok (image : String)
  deriving DecidableEq, Repr

/-- One attempt of the per-file closure `f` inside `imagesLoadAndPush`
(walked entry `i`, attempt `a`): load, extract the image name, build the
destination reference with `newImageWithNewDomain` (empty result is the
`parse image name failure` error), tag, push; on full success `count++`,
append the destination reference, `progress := count*100/ImagesNumber`,
persist on change.  Returns the new status and count, or the error. -/
def loadPushAttempt (newDomain : String) (now : Nat)
    (st : RainbondPackageStatus) (outcome : LoadAttempt) (count : Int) :
    (RainbondPackageStatus × Int) ⊕ String :=
  match outcome with
  | .loadErr e => .inr ("load image: " ++ e)
  | .tagErr image e =>
    if newImageWithNewDomain image newDomain = "" then
      .inr "parse image name failure"
    else .inr ("tag image: " ++ e)
  | .pushErr image e =>
    let newImage := newImageWithNewDomain image newDomain
    if newImage = "" then .inr "parse image name failure"
    else .inr ("push image " ++ newImage ++ ": " ++ e)
  | .ok image =>
    let newImage := newImageWithNewDomain image newDomain
    if newImage = "" then .inr "parse image name failure"
    else
      let count := count + 1
      let st := { st with imagesPushed := st.imagesPushed ++ [RainbondPackageImage.mk newImage] }
      let progress := count * 100 / st.imagesNumber
      let conds := (updateConditionProgress st.conditions .PushImage progress now).1
      .inl ({ st with conditions := conds }, count)

/-- `retryutil.Retry(1*time.Second, 3, f)` around `loadPushAttempt`, with
`f`'s state threaded (`fuel` = attempts left). -/
def loadPushRetry (newDomain : String) (now : Nat)
    (env : Nat → Nat → LoadAttempt) (st : RainbondPackageStatus)
    (i : Nat) (count : Int) : Nat → Nat → (RainbondPackageStatus × Int) ⊕ String
  | _, 0 => .inr "retry count exhausted"
  | a, fuel + 1 =>
    match loadPushAttempt newDomain now st (env i a) count with
    | .inl r => .inl r
    | .inr e =>
      if fuel = 0 then .inr e
      else loadPushRetry newDomain now env st i count (a + 1) fuel

/-- The `filepath.Walk` loop of `imagesLoadAndPush`: skip non-files and
files failing `validateFile`; run the retried per-file body on the rest,
aborting the walk with its error on exhaustion. -/
def loadPushWalk (newDomain : String) (now : Nat)
    (env : Nat → Nat → LoadAttempt) (st : RainbondPackageStatus) :
    List FileEntry → Nat → Int → RainbondPackageStatus × Option String
  | [], _, _ => (st, none)
  | e :: rest, i, count =>
    if !e.isFile then loadPushWalk newDomain now env st rest (i + 1) count
    else if !validateFile e.path then loadPushWalk newDomain now env st rest (i + 1) count
    else
      match loadPushRetry newDomain now env st i count 0 3 with
      | .inr err => (st, some err)
      | .inl (st', count') => loadPushWalk newDomain now env st' rest (i + 1) count'

/-- `imagesLoadAndPush()`: set `ImagesNumber := countImages(pkgDst)`,
reset `ImagesPushed` to nil, then walk the unpack directory with
`loadPushWalk`.  `env i a` describes attempt `a` of the docker
load/tag/push interactions for the `i`-th walked entry (operands of the
progress division are nonnegative, so Go's truncated division agrees with
Lean's). -/
def imagesLoadAndPush (s : PkgState) (newDomain : String)
    (fs : List FileEntry) (env : Nat → Nat → LoadAttempt)
    (now : Nat) : RainbondPackageStatus × Option String :=
  let st := { s.status with imagesNumber := countImages fs, imagesPushed := [] }
  loadPushWalk newDomain now env st fs 0 0

/-! ## The `handle` pass -/

/-- The two (only) errors `configByCluster` can produce:
`errorClusterConfigNotReady` and `errorClusterConfigNoLocalHub`. -/
inductive ConfigErr
  | notReady
  | noLocalHub
  deriving DecidableEq, Repr

/-- The error `handle` returns, by origin. -/
inductive HandleErr
  | configWait (e : ConfigErr)
  | downloadFailed (e : String)
  | untarFailed (e : String)
  | loadAndPushFailed (e : String)
  | pullAndPushFailed (e : String)
  deriving DecidableEq, Repr

/-- The external world one `handle` pass interacts with. -/
structure HandleEnv where
  configErr : Option ConfigErr
  dl        : DownloadOracle
  untarErr  : Option String
  pullEnv   : Nat → Nat → Option String
  newDomain : String
  loadFs    : List FileEntry
  loadEnv   : Nat → Nat → LoadAttempt

/-- `handle()`: check cluster config (its only failure modes are the two
waiting errors, returned unchanged); mark Init `Completed`
(`setInitStatus`, persistence succeeding); then run at most one stage
selected by the gatekeeper, marking it `Failed` (with reason) or
`Completed` and returning. -/
def handle (s : PkgState) (env : HandleEnv) (now : Nat) :
    PkgState × Option HandleErr :=
  match env.configErr with
  | some e => (s, some (.configWait e))
  | none =>
    let s := { s with status :=
      { s.status with conditions := setInitStatus s.status.conditions } }
    let dl := canDownload s now
    let s := { s with status := dl.2 }
    if dl.1 then
      let r := donwnloadPackage s.status env.dl now
      let s := { s with status := r.1 }
      match r.2.1 with
      | some e =>
        let conds := updateConditionStatus s.status.conditions .DownloadPackage .Failed now
        let conds := updateConditionResion conds .DownloadPackage e "download package failure" now
        ({ s with status := { s.status with conditions := conds } },
         some (.downloadFailed e))
      | none =>
        let conds := updateConditionStatus s.status.conditions .DownloadPackage .Completed now
        ({ s with status := { s.status with conditions := conds } }, none)
    else
      let up := canUnpack s now
      let s := { s with status := up.2 }
      if up.1 then
        match env.untarErr with
        | some e =>
          let conds := updateConditionStatus s.status.conditions .UnpackPackage .Failed now
          let conds := updateConditionResion conds .UnpackPackage e "unpack package failure" now
          ({ s with status := { s.status with conditions := conds } },
           some (.untarFailed e))
        | none =>
          let conds := updateConditionStatus s.status.conditions .UnpackPackage .Completed now
          ({ s with status := { s.status with conditions := conds } }, none)
      else if canPushImage s then
        if s.downloadPackage then
          let r := imagesLoadAndPush s env.newDomain env.loadFs env.loadEnv now
          let s := { s with status := r.1 }
          match r.2 with
          | some e =>
            let conds := updateConditionStatus s.status.conditions .PushImage .Failed now
            let conds := updateConditionResion conds .PushImage e "load and push images failure" now
            ({ s with status := { s.status with conditions := conds } },
             some (.loadAndPushFailed e))
          | none =>
            let conds := updateConditionStatus s.status.conditions .PushImage .Completed now
            ({ s with status := { s.status with conditions := conds } }, none)
        else
          let r := imagePullAndPush s env.pullEnv now
          let s := { s with status := r.1 }
          match r.2 with
          | some e =>
            let conds := updateConditionStatus s.status.conditions .PushImage .Failed now
            let conds := updateConditionResion conds .PushImage e "pull and push images failure" now
            ({ s with status := { s.status with conditions := conds } },
             some (.pullAndPushFailed e))
          | none =>
            let conds := updateConditionStatus s.status.conditions .PushImage .Completed now
            ({ s with status := { s.status with conditions := conds } }, none)
      else if canReady s then
        let conds := updateConditionStatus s.status.conditions .Ready .Completed now
        ({ s with status := { s.status with conditions := conds } }, none)
      else (s, none)

/-! ## Spec-side definitions and concrete fixtures -/

/-- Apply `f` to the first element satisfying `p` and keep the rest — the
shape of the Go "find by type, mutate in place, break" loops. -/
def mapFirst {α : Type _} (p : α → Prop) [DecidablePred p] (f : α → α) :
    List α → List α
  | [] => []
  | a :: as => if p a then f a :: as else a :: mapFirst p f as

/-- The spec's description of `setStatus(stage, status)` applied to one
condition: updates heartbeat always; updates transition time only on
change; on transition to Completed, forces progress=100 and clears
reason/message. -/
def setStatusSpecCond (c : PackageCondition) (status : PackageConditionStatus)
    (now : Nat) : PackageCondition :=
  let c1 := { c with
    lastHeartbeatTime := now,
    lastTransitionTime := if c.status ≠ status then now else c.lastTransitionTime,
    status := status }
  if status = .Completed then { c1 with progress := 100, reason := "", message := "" }
  else c1

/-- A condition with zeroed timestamps and default reason/message/progress. -/
def mkCond (t : PackageConditionType) (s : PackageConditionStatus) :
    PackageCondition :=
  { type := t, status := s, lastHeartbeatTime := 0, lastTransitionTime := 0 }

/-- A pkg at the start of the PushImage stage in pull-and-push mode with a
two-entry image mapping (the spec's Scenario D). -/
def pullScenarioState : PkgState :=
  { status := { conditions := [mkCond .Init .Completed, mkCond .DownloadPackage .Completed,
      mkCond .UnpackPackage .Completed, mkCond .PushImage .Waiting, mkCond .Ready .Waiting] }
    downloadPackage := false
    downloadImageDomain := "rainbond"
    pushImageDomain := "reg.local/rbd"
    images := [("/builder:v5.3.3", "/builder"), ("/runner:v5.3.3", "/runner")] }

/-- A `handle` environment with complete configuration and no download
needed, whose docker pull/tag/push interactions are given by `env`. -/
def pullScenarioEnv (env : Nat → Nat → Option String) : HandleEnv :=
  { configErr := none, dl := ⟨true, none, none⟩, untarErr := none,
    pullEnv := env, newDomain := "", loadFs := [], loadEnv := fun _ _ => .ok "" }

/-- A pkg that must download its bundle, at the start of DownloadPackage. -/
def downloadScenarioState : PkgState :=
  { status := { conditions := [mkCond .Init .Waiting, mkCond .DownloadPackage .Waiting,
      mkCond .UnpackPackage .Waiting, mkCond .PushImage .Waiting, mkCond .Ready .Waiting] }
    downloadPackage := true }

/-- The environment in which the download stage runs and both transfer
attempts fail with `e1` then `e2`. -/
def downloadScenarioEnv (e1 e2 : String) : HandleEnv :=
  { configErr := none, dl := ⟨false, some e1, some e2⟩, untarErr := none,
    pullEnv := fun _ _ => none, newDomain := "", loadFs := [], loadEnv := fun _ _ => .ok "" }

/-- A persisted status with one `Failed` condition and none `Running`. -/
def failedScenarioStatus : RainbondPackageStatus :=
  { conditions := [mkCond .Init .Completed, mkCond .DownloadPackage .Failed,
      mkCond .UnpackPackage .Waiting, mkCond .PushImage .Waiting, mkCond .Ready .Waiting] }

/-- The pkg built for `failedScenarioStatus` (pull-and-push mode). -/
def failedScenarioPkg : PkgState :=
  { status := failedScenarioStatus, downloadPackage := false }

/-- A directory listing holding a single valid archive member. -/
def singleImageFs : List FileEntry :=
  [{ path := "/opt/rainbond/pkg/files/rbd-api.tgz", isFile := true }]

/-! ## Helper lemmas -/

theorem map_mapFirst {α β : Type _} (p : α → Prop) [DecidablePred p]
    (f : α → α) (g : α → β) (h : ∀ a, g (f a) = g a) :
    ∀ l : List α, (mapFirst p f l).map g = l.map g := by
  intro l
  induction l with
  | nil => rfl
  | cons a as ih =>
    by_cases hp : p a <;> simp [mapFirst, hp, h, ih]

theorem updateConditionStatus_eq_mapFirst (conds : List PackageCondition)
    (typ3 : PackageConditionType) (status : PackageConditionStatus) (now : Nat) :
    updateConditionStatus conds typ3 status now
      = mapFirst (fun c => c.type = typ3) (fun c => setStatusSpecCond c status now) conds := by
  induction conds with
  | nil => rfl
  | cons c rest ih =>
    by_cases hp : c.type = typ3 <;>
      simp [updateConditionStatus, mapFirst, setStatusSpecCond, hp, ih]

theorem setInitStatus_eq_mapFirst (conds : List PackageCondition) :
    setInitStatus conds
      = mapFirst (fun c => c.type = .Init)
          (fun c => if c.status ≠ .Completed then { c with status := .Completed } else c)
          conds := by
  induction conds with
  | nil => rfl
  | cons c rest ih =>
    by_cases hp : c.type = .Init <;> simp [setInitStatus, mapFirst, hp, ih]

theorem setStatusSpecCond_type (c : PackageCondition)
    (status : PackageConditionStatus) (now : Nat) :
    (setStatusSpecCond c status now).type = c.type := by
  by_cases h : status = .Completed <;> simp [setStatusSpecCond, h]

theorem findCondition_updateConditionStatus_self (conds : List PackageCondition)
    (typ3 : PackageConditionType) (status : PackageConditionStatus) (now : Nat) :
    findCondition (updateConditionStatus conds typ3 status now) typ3
      = (findCondition conds typ3).map (fun c => setStatusSpecCond c status now) := by
  rw [updateConditionStatus_eq_mapFirst]
  induction conds with
  | nil => rfl
  | cons c rest ih =>
    by_cases hp : c.type = typ3
    · simp [mapFirst, findCondition, List.find?, hp, setStatusSpecCond_type]
    · simpa [mapFirst, findCondition, List.find?, hp] using ih

theorem checkConditionsLoop_failed (conds : List PackageCondition)
    (hrun : ∀ c ∈ conds, c.status ≠ .Running)
    (hfail : ∃ c ∈ conds, c.status = .Failed) :
    ∀ k, checkConditionsLoop conds k = .inl (false, none) := by
  induction conds with
  | nil => exact absurd hfail (by simp)
  | cons c rest ih =>
    intro k
    have hcrun : c.status ≠ .Running := hrun c (by simp)
    by_cases hf : c.status = .Failed
    · simp [checkConditionsLoop, hcrun, hf]
    · have hrest : ∃ d ∈ rest, d.status = .Failed := by
        rcases hfail with ⟨d, hd, hds⟩
        rcases List.mem_cons.mp hd with rfl | hd'
        · exact absurd hds hf
        · exact ⟨d, hd', hds⟩
      have := ih (fun d hd => hrun d (List.mem_cons_of_mem _ hd)) hrest
      simp [checkConditionsLoop, hcrun, hf, this]

theorem updateConditionProgress_go_le (typ3 : PackageConditionType) (now : Nat) :
    ∀ (conds : List PackageCondition) (prog : Int), prog ≤ 100 →
      (∀ c ∈ conds, c.progress ≤ 100) →
      ∀ c' ∈ (updateConditionProgress.go typ3 now conds prog).1, c'.progress ≤ 100 := by
  intro conds
  induction conds with
  | nil => intro prog _ _ c' hc'; simp [updateConditionProgress.go] at hc'
  | cons c rest ih =>
    intro prog hprog hall c' hc'
    have hc : c.progress ≤ 100 := hall c (by simp)
    have hrest : ∀ d ∈ rest, d.progress ≤ 100 :=
      fun d hd => hall d (List.mem_cons_of_mem _ hd)
    by_cases hp : c.type = typ3
    · by_cases hne : c.progress = prog
      · simp [updateConditionProgress.go, hp, hne] at hc'
        rcases hc' with rfl | h
        · simpa using hne ▸ hc
        · exact ih prog hprog hrest c' h
      · simp [updateConditionProgress.go, hp, hne] at hc'
        rcases hc' with rfl | h
        · simpa using hprog
        · exact hrest c' h
    · simp [updateConditionProgress.go, hp] at hc'
      rcases hc' with rfl | h
      · exact hc
      · exact ih prog hprog hrest c' h

theorem updateConditionProgress_go_changed (typ3 : PackageConditionType) (now : Nat) :
    ∀ (conds : List PackageCondition) (prog : Int),
      ((updateConditionProgress.go typ3 now conds prog).2 = true
        ↔ (updateConditionProgress.go typ3 now conds prog).1.map (fun c => c.progress)
            ≠ conds.map (fun c => c.progress)) := by
  intro conds
  induction conds with
  | nil => intro prog; simp [updateConditionProgress.go]
  | cons c rest ih =>
    intro prog
    by_cases hp : c.type = typ3
    · by_cases hne : c.progress = prog
      · simpa [updateConditionProgress.go, hp, hne] using ih prog
      · simp [updateConditionProgress.go, hp, hne]
        exact fun h => hne h.symm
    · simpa [updateConditionProgress.go, hp] using ih prog

/-! ## Claim theorems -/

/-- C3 (counterexample): building a destination reference from the loaded
image name `registry.example/foo/bar:1.2` and the new domain
`dest.example/ns` does NOT yield `dest.example/ns/bar:1.2`:
`reference.Parse` splits off only the domain `registry.example`, so the
repository path `foo/bar` is preserved whole. -/
theorem C3_counterexample :
    newImageWithNewDomain "registry.example/foo/bar:1.2" "dest.example/ns"
      ≠ "dest.example/ns/bar:1.2" := by decide

/-- C3 (amended): building a destination reference from the loaded image
name `registry.example/foo/bar:1.2` and the new domain `dest.example/ns`
yields exactly `dest.example/ns/foo/bar:1.2` (the repository path
`foo/bar`, not just its last component, is kept under the new domain). -/
theorem C3_amended :
    newImageWithNewDomain "registry.example/foo/bar:1.2" "dest.example/ns"
      = "dest.example/ns/foo/bar:1.2" := by decide

/-- C4 (counterexample): `updateConditionProgress` does not clamp negative
inputs: on a PushImage condition with stored progress 0, input `-5` stores
`-5`, which lies outside `[0,100]`. -/
theorem C4_counterexample :
    ((updateConditionProgress [mkCond .PushImage .Running] .PushImage (-5) 9).1.map
        (fun c => c.progress) = [-5]) ∧ ((-5 : Int) < 0) := by decide

/-- C4 (amended): for every stage and every integer input, `setProgress`
(`updateConditionProgress`) keeps every stored progress at most 100
(inputs above 100 are clamped to 100; negative inputs are stored as given,
so only the upper bound holds), and it returns `true` exactly when some
stored progress value changed. -/
theorem C4_setProgress_upper_bound_and_changed (conds : List PackageCondition)
    (typ3 : PackageConditionType) (progress : Int) (now : Nat)
    (hall : ∀ c ∈ conds, c.progress ≤ 100) :
    (∀ c' ∈ (updateConditionProgress conds typ3 progress now).1, c'.progress ≤ 100) ∧
    ((updateConditionProgress conds typ3 progress now).2 = true
      ↔ (updateConditionProgress conds typ3 progress now).1.map (fun c => c.progress)
          ≠ conds.map (fun c => c.progress)) := by
  have hclamp : (if progress > 100 then 100 else progress) ≤ 100 := by
    by_cases h : progress > 100
    · simp [h]
    · simp [h]; omega
  constructor
  · exact updateConditionProgress_go_le typ3 now conds _ hclamp hall
  · exact updateConditionProgress_go_changed typ3 now conds _

/-- C4 (witness): the amended theorem applied to a single Waiting
PushImage condition and the over-range input 150. -/
theorem C4_witness :
    (∀ c ∈ [mkCond .PushImage .Waiting], c.progress ≤ 100) ∧
    ((updateConditionProgress [mkCond .PushImage .Waiting] .PushImage 150 3).2 = true
      ↔ (updateConditionProgress [mkCond .PushImage .Waiting] .PushImage 150 3).1.map
            (fun c => c.progress)
          ≠ [mkCond .PushImage .Waiting].map (fun c => c.progress)) :=
  ⟨by decide,
   (C4_setProgress_upper_bound_and_changed [mkCond .PushImage .Waiting] .PushImage 150 3
      (by decide)).2⟩

/-- C6: for every package status with zero conditions, the pass initializes
exactly the 5 stage conditions in the order Init, DownloadPackage,
UnpackPackage, PushImage, Ready, all `Waiting`, and returns without error
(`returnNoError`, persistence succeeding). -/
theorem C6_empty_conditions_initializes (st : RainbondPackageStatus) (now : Nat)
    (h : st.conditions = []) :
    reconcileDispatch st now = (initPackageStatus .Waiting now, .returnNoError) ∧
    (initPackageStatus .Waiting now).conditions.map (fun c => c.type)
      = [.Init, .DownloadPackage, .UnpackPackage, .PushImage, .Ready] ∧
    (initPackageStatus .Waiting now).conditions.length = 5 ∧
    ∀ c ∈ (initPackageStatus .Waiting now).conditions, c.status = .Waiting := by
  refine ⟨?_, by simp [initPackageStatus], by simp [initPackageStatus], ?_⟩
  · simp [reconcileDispatch, checkStatusCanReturn, h]
  · intro c hc
    simp [initPackageStatus] at hc
    rcases hc with rfl | rfl | rfl | rfl | rfl <;> rfl

/-- C6 (witness): the theorem applied to the literal empty status. -/
theorem C6_witness :
    reconcileDispatch { conditions := [] } 0 = (initPackageStatus .Waiting 0, .returnNoError) :=
  (C6_empty_conditions_initializes { conditions := [] } 0 rfl).1

/-- C7: for every stage and status, `updateConditionStatus` (the Condition
Store's `setStatus`) transforms exactly the first condition of that stage
by the spec's rule — heartbeat updated unconditionally, transition time
updated only when the status changes, and on `Completed` progress forced
to 100 with reason and message cleared — leaving all other conditions
unchanged. -/
theorem C7_setStatus_spec (conds : List PackageCondition)
    (typ3 : PackageConditionType) (status : PackageConditionStatus) (now : Nat) :
    updateConditionStatus conds typ3 status now
      = mapFirst (fun c => c.type = typ3) (fun c => setStatusSpecCond c status now) conds :=
  updateConditionStatus_eq_mapFirst conds typ3 status now

/-- C10: `setInitStatus` assigns only the status field of the first Init
condition (and only when it is not already `Completed`): progress, reason,
message, transition and heartbeat times of every condition are unchanged,
so a `Completed` Init condition can retain a progress other than 100 —
whereas the same transition through `updateConditionStatus` forces
progress 100. -/
theorem C10_setInitStatus_direct_assignment (conds : List PackageCondition) :
    ((setInitStatus conds).map (fun c => c.progress) = conds.map (fun c => c.progress)) ∧
    ((setInitStatus conds).map (fun c => c.reason) = conds.map (fun c => c.reason)) ∧
    ((setInitStatus conds).map (fun c => c.message) = conds.map (fun c => c.message)) ∧
    ((setInitStatus conds).map (fun c => c.lastTransitionTime)
      = conds.map (fun c => c.lastTransitionTime)) ∧
    ((setInitStatus conds).map (fun c => c.lastHeartbeatTime)
      = conds.map (fun c => c.lastHeartbeatTime)) ∧
    ((findCondition (setInitStatus [{ mkCond .Init .Waiting with progress := 37 }]) .Init).map
        (fun c => (c.status, c.progress)) = some (.Completed, 37)) ∧
    ((findCondition (updateConditionStatus [{ mkCond .Init .Waiting with progress := 37 }]
          .Init .Completed 5) .Init).map
        (fun c => (c.status, c.progress)) = some (.Completed, 100)) := by
  rw [setInitStatus_eq_mapFirst]
  refine ⟨map_mapFirst _ _ _ ?_ conds, map_mapFirst _ _ _ ?_ conds,
    map_mapFirst _ _ _ ?_ conds, map_mapFirst _ _ _ ?_ conds,
    map_mapFirst _ _ _ ?_ conds, by decide, by decide⟩
  all_goals
    intro c
    by_cases h : c.status = .Completed <;> simp [h]

/-- C1 (counterexample): on a persisted status with DownloadPackage
`Failed` and no condition `Running`, `checkStatusCanReturn` yields
`(false, nil)`, so the pass does NOT return immediately: it proceeds to
`handle`, and the gatekeeper's skip-shortcut there even mutates the Failed
condition (DownloadPackage ends `Completed` in this pass). -/
theorem C1_counterexample :
    (reconcileDispatch failedScenarioStatus 1).2 = PassAction.proceedToHandle ∧
    (findCondition (handle failedScenarioPkg
          (pullScenarioEnv (fun _ _ => none)) 1).1.status.conditions
        .DownloadPackage).map (fun c => c.status) = some .Completed := by decide

/-- C1 (amended): for every persisted package whose condition set contains
at least one `Failed` condition and none `Running`, the pass does not
return early: `checkStatusCanReturn` answers `(false, nil)` and the pass
proceeds to the gatekeeper (`handle`) with the status unchanged — Failed
stages are re-examined on every pass rather than blocking it. -/
theorem C1_failed_proceeds_to_handle (st : RainbondPackageStatus) (now : Nat)
    (hrun : ∀ c ∈ st.conditions, c.status ≠ .Running)
    (hfail : ∃ c ∈ st.conditions, c.status = .Failed) :
    reconcileDispatch st now = (st, .proceedToHandle) := by
  have hne : st.conditions ≠ [] := by
    rcases hfail with ⟨c, hc, _⟩
    exact List.ne_nil_of_mem hc
  simp [reconcileDispatch, checkStatusCanReturn, hne,
    checkConditionsLoop_failed st.conditions hrun hfail 0]

/-- C1 (witness): the amended theorem applied to the concrete
one-Failed-stage status. -/
theorem C1_witness :
    reconcileDispatch failedScenarioStatus 2 = (failedScenarioStatus, .proceedToHandle) :=
  C1_failed_proceeds_to_handle failedScenarioStatus 2 (by decide) (by decide)

/-- C5 (counterexample): on a condition set with UnpackPackage `Completed`
and PushImage `Waiting`, the gatekeeper selects PushImage
(`canPushImage = true`) but performs no mutation at all — there is no
Waiting→Running flip for PushImage, so its condition is still `Waiting`,
not `Running`, when the stage body starts. -/
theorem C5_counterexample :
    canPushImage pullScenarioState = true ∧
    (findCondition pullScenarioState.status.conditions .PushImage).map (fun c => c.status)
      = some .Waiting := by decide

/-- C5 (amended): whenever `canDownload` or `canUnpack` selects its stage
(returns `true`), the selected stage's condition is `Running` in the
resulting status, before the stage body executes; `canPushImage`, by
contrast, claims its stage by its boolean answer alone and mutates no
condition (C5_counterexample). -/
theorem C5_claiming_sets_running (s : PkgState) (now : Nat) :
    ((canDownload s now).1 = true →
      (findCondition (canDownload s now).2.conditions .DownloadPackage).map
        (fun c => c.status) = some .Running) ∧
    ((canUnpack s now).1 = true →
      (findCondition (canUnpack s now).2.conditions .UnpackPackage).map
        (fun c => c.status) = some .Running) := by
  constructor
  · intro h
    unfold canDownload at h ⊢
    cases hfind : findCondition s.status.conditions .DownloadPackage with
    | none => simp [hfind] at h
    | some con =>
      by_cases hcomp : con.status = .Completed
      · simp [hfind, hcomp] at h
      · by_cases hdl : s.downloadPackage
        · simp [hfind, hcomp, hdl, runningCondition,
            findCondition_updateConditionStatus_self, setStatusSpecCond]
        · simp [hfind, hcomp, hdl] at h
  · intro h
    unfold canUnpack at h ⊢
    cases hfind : findCondition s.status.conditions .DownloadPackage with
    | none => simp [hfind] at h
    | some con =>
      by_cases hcomp : con.status = .Completed
      · cases hfind2 : findCondition s.status.conditions .UnpackPackage with
        | none => simp [hfind, hfind2, hcomp] at h
        | some uncon =>
          by_cases hcomp2 : uncon.status = .Completed
          · simp [hfind, hfind2, hcomp, hcomp2] at h
          · by_cases hdl : s.downloadPackage
            · simp [hfind, hfind2, hcomp, hcomp2, hdl, runningCondition,
                findCondition_updateConditionStatus_self, setStatusSpecCond]
            · simp [hfind, hfind2, hcomp, hcomp2, hdl] at h
      · simp [hfind, hcomp] at h

/-- C5 (witness): the amended theorem applied to a pkg whose download
stage is selectable (`canDownload` answers `true` and Running is set). -/
theorem C5_witness :
    (findCondition (canDownload downloadScenarioState 4).2.conditions .DownloadPackage).map
        (fun c => c.status) = some .Running :=
  (C5_claiming_sets_running downloadScenarioState 4).1 (by decide)

/-- C8: when the download stage runs and the transfer fails, the download
manager retries the transfer exactly once — two `Download()` calls, and
for every oracle never more than two — and when the retry also fails, the
second error is surfaced and `handle` marks the DownloadPackage condition
`Failed`. -/
theorem C8_download_retries_exactly_once (e1 e2 : String) (now : Nat) :
    ((donwnloadPackage downloadScenarioState.status ⟨false, some e1, some e2⟩ now).2.2 = 2) ∧
    ((donwnloadPackage downloadScenarioState.status ⟨false, some e1, some e2⟩ now).2.1
      = some e2) ∧
    ((handle downloadScenarioState (downloadScenarioEnv e1 e2) now).2
      = some (.downloadFailed e2)) ∧
    ((findCondition (handle downloadScenarioState
          (downloadScenarioEnv e1 e2) now).1.status.conditions
        .DownloadPackage).map (fun c => c.status) = some .Failed) ∧
    (∀ (st : RainbondPackageStatus) (o : DownloadOracle) (t : Nat),
      (donwnloadPackage st o t).2.2 ≤ 2) := by
  refine ⟨rfl, rfl, ?_, ?_, ?_⟩
  · simp [handle, downloadScenarioEnv, downloadScenarioState, mkCond, setInitStatus,
      canDownload, findCondition, List.find?, runningCondition, completeCondition,
      updateConditionStatus, updateConditionResion, donwnloadPackage]
  · simp [handle, downloadScenarioEnv, downloadScenarioState, mkCond, setInitStatus,
      canDownload, findCondition, List.find?, runningCondition, completeCondition,
      updateConditionStatus, updateConditionResion, donwnloadPackage]
  · intro st o t
    unfold donwnloadPackage
    cases o.existingFileMD5OK <;> cases o.firstErr <;> cases o.secondErr <;> simp

/-- C2: in pull-and-push mode with a two-entry image mapping, if handling
the first image fails on all 3 retry attempts, then `handle` marks the
PushImage stage `Failed` surfacing the last attempt's error, `ImagesPushed`
contains 0 entries (with `ImagesNumber` = 2), and no pull/tag/push is ever
attempted for the second image: the distributor's result is unchanged
under every environment that agrees on the first image's attempts. -/
theorem C2_first_image_exhausts_retries (env : Nat → Nat → Option String)
    (e0 e1 e2 : String) (now : Nat)
    (h0 : env 0 0 = some e0) (h1 : env 0 1 = some e1) (h2 : env 0 2 = some e2) :
    ((handle pullScenarioState (pullScenarioEnv env) now).2
      = some (.pullAndPushFailed e2)) ∧
    ((handle pullScenarioState (pullScenarioEnv env) now).1.status.imagesPushed = []) ∧
    ((handle pullScenarioState (pullScenarioEnv env) now).1.status.imagesNumber = 2) ∧
    ((findCondition (handle pullScenarioState
          (pullScenarioEnv env) now).1.status.conditions
        .PushImage).map (fun c => c.status) = some .Failed) ∧
    (∀ env2 : Nat → Nat → Option String, (∀ a, env2 0 a = env 0 a) →
      imagePullAndPush pullScenarioState env2 now
        = imagePullAndPush pullScenarioState env now) := by
  refine ⟨?_, ?_, ?_, ?_, ?_⟩
  · simp [handle, pullScenarioEnv, pullScenarioState, mkCond, setInitStatus,
      canDownload, canUnpack, canPushImage, findCondition, List.find?,
      imagePullAndPush, imagePullAndPush.go, retryutilRetry, retryutilRetry.go,
      h0, h1, h2, updateConditionStatus, updateConditionResion]
  · simp [handle, pullScenarioEnv, pullScenarioState, mkCond, setInitStatus,
      canDownload, canUnpack, canPushImage, findCondition, List.find?,
      imagePullAndPush, imagePullAndPush.go, retryutilRetry, retryutilRetry.go,
      h0, h1, h2, updateConditionStatus, updateConditionResion]
  · simp [handle, pullScenarioEnv, pullScenarioState, mkCond, setInitStatus,
      canDownload, canUnpack, canPushImage, findCondition, List.find?,
      imagePullAndPush, imagePullAndPush.go, retryutilRetry, retryutilRetry.go,
      h0, h1, h2, updateConditionStatus, updateConditionResion]
  · simp [handle, pullScenarioEnv, pullScenarioState, mkCond, setInitStatus,
      canDownload, canUnpack, canPushImage, findCondition, List.find?,
      imagePullAndPush, imagePullAndPush.go, retryutilRetry, retryutilRetry.go,
      h0, h1, h2, updateConditionStatus, updateConditionResion]
  · intro env2 hagree
    simp [imagePullAndPush, imagePullAndPush.go, retryutilRetry, retryutilRetry.go,
      pullScenarioState, hagree, h0, h1, h2]

/-- C2 (witness): the theorem applied to an environment whose every
attempt fails with the same error. -/
theorem C2_witness :
    ((fun _ _ => some "push err" : Nat → Nat → Option String) 0 0 = some "push err") ∧
    ((handle pullScenarioState (pullScenarioEnv (fun _ _ => some "push err")) 6).2
      = some (.pullAndPushFailed "push err")) :=
  ⟨rfl, (C2_first_image_exhausts_retries (fun _ _ => some "push err")
      "push err" "push err" "push err" 6 rfl rfl rfl).1⟩

theorem loadPushAttempt_imagesNumber (dom : String) (now : Nat)
    (st : RainbondPackageStatus) (outcome : LoadAttempt) (count : Int)
    (st' : RainbondPackageStatus) (c' : Int)
    (h : loadPushAttempt dom now st outcome count = .inl (st', c')) :
    st'.imagesNumber = st.imagesNumber := by
  cases outcome with
  | loadErr e => simp [loadPushAttempt] at h
  | tagErr im e =>
    by_cases hn : newImageWithNewDomain im dom = "" <;> simp [loadPushAttempt, hn] at h
  | pushErr im e =>
    by_cases hn : newImageWithNewDomain im dom = "" <;> simp [loadPushAttempt, hn] at h
  | ok im =>
    by_cases hn : newImageWithNewDomain im dom = ""
    · simp [loadPushAttempt, hn] at h
    · simp [loadPushAttempt, hn] at h
      obtain ⟨hst, -⟩ := h
      subst hst
      rfl

theorem loadPushRetry_imagesNumber (dom : String) (now : Nat)
    (env : Nat → Nat → LoadAttempt) (st : RainbondPackageStatus)
    (i : Nat) (count : Int) :
    ∀ (fuel a : Nat) (st' : RainbondPackageStatus) (c' : Int),
      loadPushRetry dom now env st i count a fuel = .inl (st', c') →
      st'.imagesNumber = st.imagesNumber := by
  intro fuel
  induction fuel with
  | zero => intro a st' c' h; simp [loadPushRetry] at h
  | succ fuel ih =>
    intro a st' c' h
    rw [loadPushRetry] at h
    cases hat : loadPushAttempt dom now st (env i a) count with
    | inl r =>
      rw [hat] at h
      obtain ⟨r1, r2⟩ := r
      simp at h
      obtain ⟨h1, -⟩ := h
      exact h1 ▸ loadPushAttempt_imagesNumber dom now st (env i a) count r1 r2 hat
    | inr e2 =>
      rw [hat] at h
      by_cases hf : fuel = 0
      · simp [hf] at h
      · simp [hf] at h
        exact ih (a + 1) st' c' h

theorem loadPushWalk_imagesNumber (dom : String) (now : Nat)
    (env : Nat → Nat → LoadAttempt) :
    ∀ (l : List FileEntry) (st : RainbondPackageStatus) (i : Nat) (count : Int),
      ((loadPushWalk dom now env st l i count).1).imagesNumber = st.imagesNumber := by
  intro l
  induction l with
  | nil => intro st i count; simp [loadPushWalk]
  | cons e rest ih =>
    intro st i count
    by_cases hf : e.isFile
    · by_cases hv : validateFile e.path
      · cases hr : loadPushRetry dom now env st i count 0 3 with
        | inl r =>
          have hnum := loadPushRetry_imagesNumber dom now env st i count 3 0 r.1 r.2
            (by simpa using hr)
          simp only [loadPushWalk, hf, hv, hr]
          simp [ih, hnum]
        | inr err => simp [loadPushWalk, hf, hv, hr]
      · simp [loadPushWalk, hf, hv, ih]
    · simp [loadPushWalk, hf, ih]

/-- C9: the progress division `count*100/ImagesNumber` in the
load-and-push path cannot divide by zero: `ImagesNumber` is set (and kept)
equal to `countImages` of the walked directory, and the division sits in
the per-file body, which only runs for an entry that is a file and passes
`validateFile` — the same predicate `countImages` counts — so the
denominator is at least 1 whenever the body runs. -/
theorem C9_progress_division_safe (fs : List FileEntry) (e : FileEntry)
    (s : PkgState) (dom : String) (env : Nat → Nat → LoadAttempt) (now : Nat)
    (hmem : e ∈ fs) (hfile : e.isFile = true) (hvalid : validateFile e.path = true) :
    ((1 : Int) ≤ countImages fs) ∧
    (((imagesLoadAndPush s dom fs env now).1).imagesNumber = countImages fs) := by
  constructor
  · have hpos : 0 < fs.countP (fun x => x.isFile && validateFile x.path) :=
      List.countP_pos_iff.mpr ⟨e, hmem, by simp [hfile, hvalid]⟩
    unfold countImages
    omega
  · unfold imagesLoadAndPush
    rw [loadPushWalk_imagesNumber]

/-- C9 (witness): the theorem applied to a one-file listing. -/
theorem C9_witness :
    ((1 : Int) ≤ countImages singleImageFs) ∧
    (((imagesLoadAndPush pullScenarioState "goodrain.me" singleImageFs
        (fun _ _ => .ok "goodrain.me/rbd-api:v5.3") 0).1).imagesNumber
      = countImages singleImageFs) :=
  C9_progress_division_safe singleImageFs
    { path := "/opt/rainbond/pkg/files/rbd-api.tgz", isFile := true }
    pullScenarioState "goodrain.me" (fun _ _ => .ok "goodrain.me/rbd-api:v5.3") 0
    (by decide) (by decide) (by decide)

end Rainbond
